import Mathlib

/-!
Verification development for the reask orchestration engine in
`src/guardrails/run.py` and the `ValidLength` validator in
`src/guardrails/validators.py`.

The embedding is shallow: Python values are modelled by the inductive
type `Val`, the LLM client and the schema collaborator (declared out of
scope by the design document, and not present under `src/`) are modelled
as function records (`ApiModel`, `Env`), and the observable side effects
of a run (history reset, client invocations, validate-stage entry) are
recorded in an explicit event trace.  Exceptions are modelled by
`Except` with semantic error tags (`RunErr`); the exact wording of the
Python error messages is elided.  Prompt templating (`prompt_params`
formatting) is elided, since the design document places templating out
of scope and no claim concerns it.
-/

/-- Python values as they flow through the orchestrator: `None`, strings,
integers, lists, dicts, and the two ReAsk marker variants.  Modelled from
the spec (section 3): `FieldReAsk` and `NonParseableReAsk` live in
`guardrails.utils.reask_utils`, which is not under `src/`; `fieldReAsk`
carries the incorrect value and the first fail result's fix value (the
path and remaining fail results are elided), `nonParseableReAsk` carries
the raw unparseable value. -/
inductive Val where
  | vnone
  | vstr (s : String)
  | vint (n : Int)
  | vlist (xs : List Val)
  | vdict (kvs : List (String × Val))
  | fieldReAsk (incorrectValue : Val) (fixValue : Option Val)
  | nonParseableReAsk (incorrectValue : Val)

instance : Inhabited Val := ⟨Val.vnone⟩

/-- Python truthiness of a string: nonempty. -/
def strTruthy (s : String) : Bool := decide (s ≠ "")

/-- Python truthiness of an `Optional[str]`. -/
def optStrTruthy : Option String → Bool
  | none => false
  | some s => strTruthy s

/-- Python truthiness of an `Optional[List[...]]` message history. -/
def msgTruthy : Option (List String) → Bool
  | none => false
  | some l => !l.isEmpty

/-- Python truthiness of a `Val`.  ReAsk marker objects are plain class
instances, hence always truthy. -/
def Val.truthy : Val → Bool
  | .vnone => false
  | .vstr s => strTruthy s
  | .vint n => decide (n ≠ 0)
  | .vlist xs => !xs.isEmpty
  | .vdict kvs => !kvs.isEmpty
  | .fieldReAsk _ _ => true
  | .nonParseableReAsk _ => true

/-- The Python expression `a or b`. -/
def pyOr (a b : Val) : Val := if a.truthy then a else b

/-- Test for the `NonParseableReAsk` variant (`isinstance(x, NonParseableReAsk)`). -/
def Val.isNonParseable : Val → Bool
  | .nonParseableReAsk _ => true
  | _ => false

/-- Test for Python `None` (`x is None`). -/
def Val.isPyNone : Val → Bool
  | .vnone => true
  | _ => false

/-- Test for either ReAsk marker variant (`isinstance(x, ReAsk)`). -/
def Val.isReAsk : Val → Bool
  | .fieldReAsk _ _ => true
  | .nonParseableReAsk _ => true
  | _ => false

mutual
/-- Modelled from the spec: `sub_reasks_with_fixed_values` lives in
`guardrails.utils.reask_utils`, which is not under `src/`.  Following
section 4.1 of the design document, it walks the structure, replaces
every `FieldReAsk` with its carried fix value (the fix having been
attached at validation time; a missing fix becomes `None`), and replaces
an `UnparseableReAsk` with an explicit could-not-produce marker rather
than fabricating content.  `None` and plain leaves pass through
unchanged. -/
def sub_reasks_with_fixed_values : Val → Val
  | Val.vnone => Val.vnone
  | Val.vstr s => Val.vstr s
  | Val.vint n => Val.vint n
  | Val.vlist xs => Val.vlist (subReasksList xs)
  | Val.vdict kvs => Val.vdict (subReasksPairs kvs)
  | Val.fieldReAsk _ fixValue => fixValue.getD Val.vnone
  | Val.nonParseableReAsk _ => Val.vstr "could not produce valid output"

/-- Pointwise substitution over list elements. -/
def subReasksList : List Val → List Val
  | [] => []
  | x :: xs => sub_reasks_with_fixed_values x :: subReasksList xs

/-- Pointwise substitution over dict entries. -/
def subReasksPairs : List (String × Val) → List (String × Val)
  | [] => []
  | (k, v) :: kvs => (k, sub_reasks_with_fixed_values v) :: subReasksPairs kvs
end

/-- Mirror of `guardrails/utils/llm_response.py`: an `LLMResponse` carries
optional token counts and the raw output text. -/
structure LLMResponse where
  prompt_token_count : Option Nat := none
  response_token_count : Option Nat := none
  output : String
deriving DecidableEq, Repr

/-- Observable side effects of a run, recorded in order: a Session History
reset (`Runner._reset_guard_history`), an invocation of the model client
(`hinted = true` when the `base_model` structured-output hint was passed),
and an entry into the schema's validate stage. -/
inductive Event where
  | reset
  | apiCall (hinted : Bool)
  | validateCall
deriving DecidableEq, Repr

/-- Semantic tags for the exceptions the orchestrator can raise.  The
Python message strings are elided (sync and async wordings differ
slightly but carry the same meaning). -/
inductive RunErr where
  | missingMetadataKeys
  | apiMustBeProvided
  | promptOrMsgHistoryRequired
  | apiOrOutputRequired
  | apiException
deriving DecidableEq, Repr

/-- The shape of arguments handed to the model client, one constructor per
branch of `Runner.call`. -/
inductive CallKind where
  | msgHist (h : List String)
  | promptInstr (prompt instructions : String)
  | promptOnly (prompt : String)
deriving DecidableEq, Repr

/-- The model client collaborator (out of scope per the design document,
consumed as an opaque callable).  `hinted` models an invocation with the
`base_model` keyword, `unhinted` one without; an `error` result models
the call raising. -/
structure ApiModel where
  hinted : CallKind → Except Unit LLMResponse
  unhinted : CallKind → Except Unit LLMResponse

/-- The schema collaborator (out of scope per the design document).  `S`
is the abstract type of schemas; `s0` is the initial output schema held
by the runner.  `requiredKeys` models the metadata keys declared as
required by validators reachable from the root datatype, consumed by
`verify_metadata_requirements`.  The async validate entry point is
modelled by the same function as the blocking one, per section 6 of the
design document (two invocation forms of one operation). -/
structure Env (S : Type) where
  s0 : S
  requiredKeys : List String
  parse : S → String → Val × Bool
  validate : S → Val → Val
  introspect : S → Val → List Val
  get_reask_setup : S → List Val → Val → Bool → S × String × Option String
  preprocess_prompt : S → Option String → String → Option String × String

/-- Modelled from the spec: `verify_metadata_requirements` lives in
`guardrails.datatypes`, which is not under `src/`.  Per sections 4.4 and
6 of the design document it returns the required metadata keys missing
from the run's metadata.  Metadata is modelled by its key set. -/
def verify_metadata_requirements (metadata : List String)
    (requiredKeys : List String) : List String :=
  requiredKeys.filter (fun k => !metadata.contains k)

/-- Mirror of the `Runner` constructor state (`run.py` lines 46-99) after
`__init__` normalisation: a falsy `msg_history` argument is stored as
`None`, so the stored field is `none` or a nonempty list.  The
`base_model` field is folded into `ApiModel.hinted`; `guard_state`,
`input_schema` and the initial `guard_history` contents are elided (no
claim concerns them). -/
structure Runner where
  numReasks : Nat
  prompt : Option String := none
  instructions : Option String := none
  msgHistory : Option (List String) := none
  api : Option ApiModel := none
  metadata : List String := []
  output : Option String := none
  fullSchemaReask : Bool := false

/-- One Attempt Record (`GuardLogs` in `guardrails.utils.logs_utils`,
which is not under `src/`).  Modelled from the spec: each field of the
record is written by an assignment (or by `set_validated_output` for the
validated value); to make write-discipline claims statable, each field
holds the ordered list of values written to it, so a field written
exactly once holds a one-element list. -/
structure GuardLogs where
  promptW : List (Option String) := []
  instructionsW : List (Option String) := []
  msgHistoryW : List (Option (List String)) := []
  llmResponseW : List LLMResponse := []
  parsedOutputW : List Val := []
  validatedOutputW : List Val := []
  reasksW : List (List Val) := []

/-- Result of one `Runner.step`: the event trace so far, the Attempt
Record the step pushed (pushed before any stage runs, hence present even
when a stage raises), and either the step's `(value, reasks)` pair or
the exception it raised. -/
structure StepOut where
  events : List Event
  logs : GuardLogs
  res : Except RunErr (Val × List Val)

/-- Result of a whole run: the event trace, the Attempt Records appended
to the (freshly reset) Session History, and the exception that
terminated the run, if any. -/
structure RunOut where
  events : List Event
  hist : List GuardLogs
  err : Option RunErr

/-- Mirror of `Runner.prepare` (`run.py` lines 266-321): raises when no
API is configured; a truthy message history is formatted and returned
with prompt and instructions cleared; otherwise a present prompt is
formatted and passed with the instructions through
`output_schema.preprocess_prompt`; otherwise raises.  Template
formatting with `prompt_params` is elided. -/
def Runner.prepare {S : Type} (R : Runner) (env : Env S) (s : S)
    (instructions : Option String) (prompt : Option String)
    (msgHistory : Option (List String)) :
    Except RunErr (Option String × Option String × Option (List String)) :=
  if R.api.isNone then
    .error RunErr.apiMustBeProvided
  else if msgTruthy msgHistory then
    .ok (none, none, msgHistory)
  else if prompt.isSome then
    match env.preprocess_prompt s instructions (prompt.getD "") with
    | (instructions2, prompt2) => .ok (instructions2, some prompt2, msgHistory)
  else
    .error RunErr.promptOrMsgHistoryRequired

/-- Mirror of `Runner.call` (`run.py` lines 323-377).  A provided literal
output short-circuits; otherwise the client is required; the three
argument shapes are tried in source order (truthy message history, then
prompt together with instructions, then prompt alone), each first with
the structured-output hint and, if that raises, exactly once more
without it; an exception from the unhinted attempt propagates.  Client
invocations are appended to the event trace. -/
def Runner.call (instructions : Option String) (prompt : Option String)
    (msgHistory : Option (List String)) (api : Option ApiModel)
    (output : Option String) (ev : List Event) :
    List Event × Except RunErr LLMResponse :=
  match output with
  | some o => (ev, .ok { output := o })
  | none =>
    match api with
    | none => (ev, .error RunErr.apiOrOutputRequired)
    | some a =>
      if msgTruthy msgHistory then
        callWithFallback a (CallKind.msgHist (msgHistory.getD [])) ev
      else
        match prompt, instructions with
        | some p, some i => callWithFallback a (CallKind.promptInstr p i) ev
        | some p, none => callWithFallback a (CallKind.promptOnly p) ev
        | none, _ => (ev, .error RunErr.promptOrMsgHistoryRequired)
where
  /-- The shared try/except shape of the three branches: hinted attempt,
  then on exception one unhinted attempt, then propagate. -/
  callWithFallback (a : ApiModel) (k : CallKind) (ev : List Event) :
      List Event × Except RunErr LLMResponse :=
    match a.hinted k with
    | .ok r => (ev ++ [Event.apiCall true], .ok r)
    | .error _ =>
      match a.unhinted k with
      | .ok r => (ev ++ [Event.apiCall true, Event.apiCall false], .ok r)
      | .error _ =>
        (ev ++ [Event.apiCall true, Event.apiCall false], .error RunErr.apiException)

/-- Mirror of `Runner.parse` (`run.py` lines 379-394): delegates to the
schema collaborator, returning the parsed value and the error flag. -/
def Runner.parse {S : Type} (env : Env S) (s : S) (output : String) : Val × Bool :=
  env.parse s output

/-- Mirror of `Runner.validate` (`run.py` lines 396-414): delegates to
the schema's validate entry point. -/
def Runner.validate {S : Type} (env : Env S) (s : S) (parsed_output : Val) : Val :=
  env.validate s parsed_output

/-- Mirror of `Runner.introspect` (`run.py` lines 416-433): `None` yields
no reasks, anything else is introspected by the schema. -/
def Runner.introspect {S : Type} (env : Env S) (s : S) (validated_output : Val) :
    List Val :=
  if validated_output.isPyNone then [] else env.introspect s validated_output

/-- Mirror of `Runner.do_loop` (`run.py` lines 435-439): loop again when
reasks remain and the iteration index is below the reask budget. -/
def Runner.do_loop (R : Runner) (index : Nat) (reasks : List Val) : Bool :=
  !reasks.isEmpty && decide (index < R.numReasks)

/-- Mirror of `Runner.prepare_to_loop` (`run.py` lines 441-459): obtain a
new schema, prompt and instructions from the schema's reask setup
(passing the previous validated structure and the full-schema flag),
clear the instructions unless they are to be included, and clear the
message history. -/
def Runner.prepare_to_loop {S : Type} (R : Runner) (env : Env S)
    (reasks : List Val) (validated_output : Val) (s : S)
    (include_instructions : Bool) :
    String × Option String × S × Option (List String) :=
  match env.get_reask_setup s reasks validated_output R.fullSchemaReask with
  | (output_schema2, prompt, instructions) =>
    let instructions2 := if include_instructions then instructions else none
    (prompt, instructions2, output_schema2, none)

/-- Mirror of `Runner.step` (`run.py` lines 181-264).  A truthy literal
output skips Prepare; the prepared request is recorded; Call runs (its
exceptions propagate); the raw response is recorded, parsed and the
parsed value recorded; a parse error that produced a `NonParseableReAsk`
skips Validate and introspects the marker directly, otherwise Validate
runs (recording the validated value) and its result is introspected; the
reasks are recorded; on a terminal iteration the fixed-value
substitution is applied; the (re-)validated value is recorded again and
`validated_output or parsed_output` is returned with the reasks.  The
Attempt Record is returned alongside (the caller appends it, mirroring
the push at the top of the Python method). -/
def Runner.step {S : Type} (R : Runner) (env : Env S) (s : S) (index : Nat)
    (instructions : Option String) (prompt : Option String)
    (msgHistory : Option (List String)) (output : Option String)
    (ev : List Event) : StepOut :=
  let gl0 : GuardLogs := {}
  match (if optStrTruthy output then
           Except.ok (none, none, none)
         else
           Runner.prepare R env s instructions prompt msgHistory) with
  | .error e => { events := ev, logs := gl0, res := .error e }
  | .ok (instructions2, prompt2, msgHistory2) =>
    let gl1 := { gl0 with
      promptW := gl0.promptW ++ [prompt2],
      instructionsW := gl0.instructionsW ++ [instructions2],
      msgHistoryW := gl0.msgHistoryW ++ [msgHistory2] }
    match Runner.call instructions2 prompt2 msgHistory2 R.api output ev with
    | (ev2, .error e) => { events := ev2, logs := gl1, res := .error e }
    | (ev2, .ok llm_response) =>
      let gl2 := { gl1 with llmResponseW := gl1.llmResponseW ++ [llm_response] }
      let raw_output := llm_response.output
      match Runner.parse env s raw_output with
      | (parsed_output, parsing_error) =>
        let gl3 := { gl2 with parsedOutputW := gl2.parsedOutputW ++ [parsed_output] }
        if parsing_error && parsed_output.isNonParseable then
          let reasks := Runner.introspect env s parsed_output
          let gl4 := { gl3 with reasksW := gl3.reasksW ++ [reasks] }
          let validated_output :=
            if !(Runner.do_loop R index reasks) then
              sub_reasks_with_fixed_values Val.vnone
            else Val.vnone
          let gl5 := { gl4 with
            validatedOutputW := gl4.validatedOutputW ++ [validated_output] }
          { events := ev2, logs := gl5,
            res := .ok (pyOr validated_output parsed_output, reasks) }
        else
          let ev3 := ev2 ++ [Event.validateCall]
          let validated_output := Runner.validate env s parsed_output
          let gl4 := { gl3 with
            validatedOutputW := gl3.validatedOutputW ++ [validated_output] }
          let reasks := Runner.introspect env s validated_output
          let gl5 := { gl4 with reasksW := gl4.reasksW ++ [reasks] }
          let validated_output2 :=
            if !(Runner.do_loop R index reasks) then
              sub_reasks_with_fixed_values validated_output
            else validated_output
          let gl6 := { gl5 with
            validatedOutputW := gl5.validatedOutputW ++ [validated_output2] }
          { events := ev3, logs := gl6,
            res := .ok (pyOr validated_output2 parsed_output, reasks) }

/-- Mirror of the retry loop inside `Runner.__call__` (`run.py` lines
153-177): `fuel` counts the remaining indices of
`range(num_reasks + 1)`.  Each iteration runs a step (the literal output
is passed only at index 0), appends its Attempt Record, stops on an
exception or when `do_loop` is false, and otherwise feeds the values
from `prepare_to_loop` into the next iteration. -/
def Runner.loop {S : Type} (R : Runner) (env : Env S)
    (include_instructions : Bool) :
    Nat → Nat → Option String → Option String → Option (List String) → S →
    List Event → List GuardLogs → RunOut
  | 0, _, _, _, _, _, ev, hist => { events := ev, hist := hist, err := none }
  | Nat.succ fuel, index, instructions, prompt, msgHistory, s, ev, hist =>
    let st := Runner.step R env s index instructions prompt msgHistory
      (if index == 0 then R.output else none) ev
    let hist2 := hist ++ [st.logs]
    match st.res with
    | .error e => { events := st.events, hist := hist2, err := some e }
    | .ok (validated_output, reasks) =>
      if !(Runner.do_loop R index reasks) then
        { events := st.events, hist := hist2, err := none }
      else
        let q := Runner.prepare_to_loop R env reasks validated_output s
          include_instructions
        Runner.loop R env include_instructions fuel (index + 1)
          q.2.1 (some q.1) q.2.2.2 q.2.2.1 st.events hist2

/-- Mirror of `Runner.__call__` (`run.py` lines 106-179): check the
metadata requirements (raising before anything else on a missing key),
reset the Session History, compute the include-instructions flag, and
run the retry loop from the constructor state. -/
def Runner.run {S : Type} (R : Runner) (env : Env S) : RunOut :=
  let missing_keys := verify_metadata_requirements R.metadata env.requiredKeys
  if !missing_keys.isEmpty then
    { events := [], hist := [], err := some RunErr.missingMetadataKeys }
  else
    let include_instructions := !(R.instructions.isNone && R.msgHistory.isNone)
    Runner.loop R env include_instructions (R.numReasks + 1) 0
      R.instructions R.prompt R.msgHistory env.s0 [Event.reset] []

/-- Mirror of `AsyncRunner.async_validate` (`run.py` lines 707-725):
the suspend-capable validate entry point, modelled by the same schema
operation as the blocking form. -/
def AsyncRunner.async_validate {S : Type} (env : Env S) (s : S)
    (parsed_output : Val) : Val :=
  env.validate s parsed_output

/-- Mirror of `AsyncRunner.async_call` (`run.py` lines 648-705): same
structure as `Runner.call` with the client awaited; the slightly
different exception message wordings are elided. -/
def AsyncRunner.async_call (instructions : Option String)
    (prompt : Option String) (msgHistory : Option (List String))
    (api : Option ApiModel) (output : Option String) (ev : List Event) :
    List Event × Except RunErr LLMResponse :=
  match output with
  | some o => (ev, .ok { output := o })
  | none =>
    match api with
    | none => (ev, .error RunErr.apiOrOutputRequired)
    | some a =>
      if msgTruthy msgHistory then
        Runner.call.callWithFallback a (CallKind.msgHist (msgHistory.getD [])) ev
      else
        match prompt, instructions with
        | some p, some i =>
          Runner.call.callWithFallback a (CallKind.promptInstr p i) ev
        | some p, none =>
          Runner.call.callWithFallback a (CallKind.promptOnly p) ev
        | none, _ => (ev, .error RunErr.promptOrMsgHistoryRequired)

/-- Mirror of `AsyncRunner.async_step` (`run.py` lines 564-646): same
stage sequence as `Runner.step`, with the Call and Validate stages in
their awaited forms. -/
def AsyncRunner.async_step {S : Type} (R : Runner) (env : Env S) (s : S)
    (index : Nat) (instructions : Option String) (prompt : Option String)
    (msgHistory : Option (List String)) (output : Option String)
    (ev : List Event) : StepOut :=
  let gl0 : GuardLogs := {}
  match (if optStrTruthy output then
           Except.ok (none, none, none)
         else
           Runner.prepare R env s instructions prompt msgHistory) with
  | .error e => { events := ev, logs := gl0, res := .error e }
  | .ok (instructions2, prompt2, msgHistory2) =>
    let gl1 := { gl0 with
      promptW := gl0.promptW ++ [prompt2],
      instructionsW := gl0.instructionsW ++ [instructions2],
      msgHistoryW := gl0.msgHistoryW ++ [msgHistory2] }
    match AsyncRunner.async_call instructions2 prompt2 msgHistory2 R.api output ev with
    | (ev2, .error e) => { events := ev2, logs := gl1, res := .error e }
    | (ev2, .ok llm_response) =>
      let gl2 := { gl1 with llmResponseW := gl1.llmResponseW ++ [llm_response] }
      let raw_output := llm_response.output
      match Runner.parse env s raw_output with
      | (parsed_output, parsing_error) =>
        let gl3 := { gl2 with parsedOutputW := gl2.parsedOutputW ++ [parsed_output] }
        if parsing_error && parsed_output.isNonParseable then
          let reasks := Runner.introspect env s parsed_output
          let gl4 := { gl3 with reasksW := gl3.reasksW ++ [reasks] }
          let validated_output :=
            if !(Runner.do_loop R index reasks) then
              sub_reasks_with_fixed_values Val.vnone
            else Val.vnone
          let gl5 := { gl4 with
            validatedOutputW := gl4.validatedOutputW ++ [validated_output] }
          { events := ev2, logs := gl5,
            res := .ok (pyOr validated_output parsed_output, reasks) }
        else
          let ev3 := ev2 ++ [Event.validateCall]
          let validated_output := AsyncRunner.async_validate env s parsed_output
          let gl4 := { gl3 with
            validatedOutputW := gl3.validatedOutputW ++ [validated_output] }
          let reasks := Runner.introspect env s validated_output
          let gl5 := { gl4 with reasksW := gl4.reasksW ++ [reasks] }
          let validated_output2 :=
            if !(Runner.do_loop R index reasks) then
              sub_reasks_with_fixed_values validated_output
            else validated_output
          let gl6 := { gl5 with
            validatedOutputW := gl5.validatedOutputW ++ [validated_output2] }
          { events := ev3, logs := gl6,
            res := .ok (pyOr validated_output2 parsed_output, reasks) }

/-- Mirror of the retry loop inside `AsyncRunner.async_run` (`run.py`
lines 537-560): identical to the synchronous loop except that
`prepare_to_loop` is called without the `include_instructions` argument,
which therefore takes its Python default `False`. -/
def AsyncRunner.async_loop {S : Type} (R : Runner) (env : Env S) :
    Nat → Nat → Option String → Option String → Option (List String) → S →
    List Event → List GuardLogs → RunOut
  | 0, _, _, _, _, _, ev, hist => { events := ev, hist := hist, err := none }
  | Nat.succ fuel, index, instructions, prompt, msgHistory, s, ev, hist =>
    let st := AsyncRunner.async_step R env s index instructions prompt msgHistory
      (if index == 0 then R.output else none) ev
    let hist2 := hist ++ [st.logs]
    match st.res with
    | .error e => { events := st.events, hist := hist2, err := some e }
    | .ok (validated_output, reasks) =>
      if !(Runner.do_loop R index reasks) then
        { events := st.events, hist := hist2, err := none }
      else
        let q := Runner.prepare_to_loop R env reasks validated_output s false
        AsyncRunner.async_loop R env fuel (index + 1)
          q.2.1 (some q.1) q.2.2.2 q.2.2.1 st.events hist2

/-- Mirror of `AsyncRunner.async_run` (`run.py` lines 496-562): resets
the Session History first, then checks the metadata requirements, then
runs the loop.  Note the reset/check order is swapped relative to
`Runner.__call__`, and no include-instructions flag is computed. -/
def AsyncRunner.async_run {S : Type} (R : Runner) (env : Env S) : RunOut :=
  let missing_keys := verify_metadata_requirements R.metadata env.requiredKeys
  if !missing_keys.isEmpty then
    { events := [Event.reset], hist := [], err := some RunErr.missingMetadataKeys }
  else
    AsyncRunner.async_loop R env (R.numReasks + 1) 0
      R.instructions R.prompt R.msgHistory env.s0 [Event.reset] []

/-- Outcome of one validator invocation, mirroring
`guardrails.validator_base.PassResult` and `FailResult`; the
`error_message` text and metadata overrides are elided. -/
inductive ValidationResult where
  | pass
  | fail (fixValue : Option Val)

/-- Mirror of `ValidLength.validate` (`validators.py` lines 297-339),
together with the final state of the candidate value, so that in-place
mutation is observable: the function returns `(value after the call,
result)`.  `randChar` stands for the character drawn by
`rstr.rstr(string.ascii_lowercase, 1)` when the value is empty.  The
string branch builds a padded copy; the list branch calls
`value.extend(...)`, which mutates the list in place and evaluates to
`None`, so the returned `fix_value` is `None` while the input list has
been extended with singleton-list wrappers of its last element. -/
def ValidLength.validate (mn mx : Option Nat) (randChar : String) (value : Val) :
    Val × ValidationResult :=
  match value with
  | .vstr s =>
    if (match mn with | some m => decide (s.length < m) | none => false) then
      let last_val := if s = "" then randChar else s.drop (s.length - 1)
      let corrected_value :=
        s ++ String.join (List.replicate ((mn.getD 0) - s.length) last_val)
      (.vstr s, .fail (some (.vstr corrected_value)))
    else if (match mx with | some m => decide (s.length > m) | none => false) then
      (.vstr s, .fail (some (.vstr (s.take (mx.getD 0)))))
    else
      (.vstr s, .pass)
  | .vlist xs =>
    if (match mn with | some m => decide (xs.length < m) | none => false) then
      let last_val : Val := .vlist [xs.getLast?.getD (.vstr randChar)]
      let mutated := xs ++ List.replicate ((mn.getD 0) - xs.length) last_val
      (.vlist mutated, .fail none)
    else if (match mx with | some m => decide (xs.length > m) | none => false) then
      (.vlist xs, .fail (some (.vlist (xs.take (mx.getD 0)))))
    else
      (.vlist xs, .pass)
  | v => (v, .pass)

/-- The branch of `Runner.call` selected by a given argument shape,
mirroring the method's own `elif` chain (used to state the Call-stage
contract uniformly over the three live branches); `none` means the
method raises for lack of a call target. -/
def callKind (instructions prompt : Option String)
    (msgHistory : Option (List String)) : Option CallKind :=
  if msgTruthy msgHistory then some (CallKind.msgHist (msgHistory.getD []))
  else
    match prompt, instructions with
    | some p, some i => some (CallKind.promptInstr p i)
    | some p, none => some (CallKind.promptOnly p)
    | none, _ => none

/-! ## Concrete collaborator instances

Small executable instances of the collaborator contracts, used to
instantiate witnesses and counterexamples.  The schema type is `Unit`
throughout (the reask setup returns the schema unchanged). -/

/-- A model client that always answers `"resp"`, hinted or not. -/
def apiOk : ApiModel :=
  { hinted := fun _ => .ok { output := "resp" },
    unhinted := fun _ => .ok { output := "resp" } }

/-- A model client whose hinted form raises and whose unhinted form
answers `"fallback"`. -/
def apiHintBroken : ApiModel :=
  { hinted := fun _ => .error (),
    unhinted := fun _ => .ok { output := "fallback" } }

/-- A model client that raises on every invocation. -/
def apiDown : ApiModel :=
  { hinted := fun _ => .error (),
    unhinted := fun _ => .error () }

/-- A baseline schema: parsing wraps the raw text, validation is the
identity, introspection finds nothing, the reask setup yields a fixed
fresh prompt and instructions, and prompt preprocessing is the
identity. -/
def envBase : Env Unit :=
  { s0 := (), requiredKeys := [],
    parse := fun _ x => (.vstr x, false),
    validate := fun _ v => v,
    introspect := fun _ _ => [],
    get_reask_setup := fun s _ _ _ => (s, "reask prompt", some "reask instructions"),
    preprocess_prompt := fun _ i p => (i, p) }

/-- The field-reask marker used by the failing-validation schema. -/
def fieldMarker : Val := .fieldReAsk (.vint 15) (some (.vint 10))

/-- A schema whose validation always embeds `fieldMarker` in a dict and
whose introspection always reports it: every iteration is
reask-worthy. -/
def envReask : Env Unit :=
  { envBase with
    validate := fun _ _ => .vdict [("f", fieldMarker)],
    introspect := fun _ _ => [fieldMarker] }

/-- A schema that can parse nothing: every raw text becomes a
`NonParseableReAsk`, and introspecting a value reports the value
itself. -/
def envUnparse : Env Unit :=
  { envBase with
    parse := fun _ x => (.nonParseableReAsk (.vstr x), true),
    introspect := fun _ v => [v] }

/-- A schema whose validation returns an empty dict (a falsy value) and
finds nothing to reask. -/
def envEmptyDict : Env Unit :=
  { envBase with validate := fun _ _ => .vdict [] }

/-- A schema requiring the metadata key `"citation"`. -/
def envNeedsMeta : Env Unit :=
  { envBase with requiredKeys := ["citation"] }

/-- Replay-mode runner with budget 0, literal output `"x"`, and empty
metadata. -/
def runnerNoMeta : Runner := { numReasks := 0, output := some "x" }

/-- Replay-mode runner: budget 0, literal output, no client. -/
def runnerReplay : Runner := { numReasks := 0, output := some "hello" }

/-- Live runner with budget 1, prompt and instructions configured. -/
def runnerLive1 : Runner :=
  { numReasks := 1, prompt := some "p0", instructions := some "i0",
    api := some apiOk }

/-- Live runner with budget 1 and a prompt but no instructions. -/
def runnerNoInstr : Runner :=
  { numReasks := 1, prompt := some "p0", api := some apiOk }

/-- Replay-mode runner with budget 0 feeding the literal `"junk"`. -/
def runnerJunk : Runner := { numReasks := 0, output := some "junk" }

/-- Live runner with budget 3 whose client always raises. -/
def runnerApiDown : Runner :=
  { numReasks := 3, prompt := some "p0", api := some apiDown }

/-! ## Helper lemmas -/

/-- The awaited call is the same function as the blocking call (the
bodies of `Runner.call` and `AsyncRunner.async_call` coincide once the
suspension is erased). -/
theorem async_call_eq_call : @AsyncRunner.async_call = @Runner.call := rfl

/-- The awaited step is the same function as the blocking step. -/
theorem async_step_eq_step : @AsyncRunner.async_step = @Runner.step := rfl

/-- A successful step records exactly the reask list it returns. -/
theorem step_writes_reasks {S : Type} (R : Runner) (env : Env S) (s : S)
    (index : Nat) (inst p : Option String) (mh : Option (List String))
    (out : Option String) (ev ev2 : List Event) (gl : GuardLogs)
    (v : Val) (rs : List Val)
    (h : Runner.step R env s index inst p mh out ev = ⟨ev2, gl, .ok (v, rs)⟩) :
    gl.reasksW = [rs] := by
  simp only [Runner.step] at h
  split at h
  · simp only [StepOut.mk.injEq] at h
    exact absurd h.2.2 (by simp)
  · split at h
    · simp only [StepOut.mk.injEq] at h
      exact absurd h.2.2 (by simp)
    · split at h <;>
        (simp only [StepOut.mk.injEq, Except.ok.injEq, Prod.mk.injEq] at h
         obtain ⟨-, hgl, -, hrs⟩ := h
         subst hgl; subst hrs; rfl)

/-- Loop invariant: the loop appends at most `fuel` Attempt Records to
the history it is given, and every appended record except the last one
carries a nonempty reask list (the loop only continues past a record
when `do_loop` saw outstanding reasks). -/
theorem loop_hist_spec {S : Type} (R : Runner) (env : Env S) (incl : Bool) :
    ∀ (fuel index : Nat) (inst p : Option String) (mh : Option (List String))
      (s : S) (ev : List Event) (hist : List GuardLogs),
    ∃ d : List GuardLogs,
      (Runner.loop R env incl fuel index inst p mh s ev hist).hist = hist ++ d ∧
      d.length ≤ fuel ∧
      ∀ gl ∈ d.dropLast, ∃ rs, gl.reasksW = [rs] ∧ rs ≠ [] := by
  intro fuel
  induction fuel with
  | zero =>
    intro index inst p mh s ev hist
    exact ⟨[], by simp [Runner.loop], by simp, by simp⟩
  | succ n ih =>
    intro index inst p mh s ev hist
    simp only [Runner.loop]
    rcases hres : (Runner.step R env s index inst p mh
        (if index == 0 then R.output else none) ev).res with e | vrs
    · exact ⟨[(Runner.step R env s index inst p mh
          (if index == 0 then R.output else none) ev).logs],
        by simp, by simp, by simp⟩
    · rcases vrs with ⟨v, rs⟩
      by_cases hdl : Runner.do_loop R index rs = true
      · simp only [hdl, Bool.not_true, Bool.false_eq_true, if_false]
        obtain ⟨d, hd1, hd2, hd3⟩ := ih (index + 1)
          (Runner.prepare_to_loop R env rs v s incl).2.1
          (some (Runner.prepare_to_loop R env rs v s incl).1)
          (Runner.prepare_to_loop R env rs v s incl).2.2.2
          (Runner.prepare_to_loop R env rs v s incl).2.2.1
          (Runner.step R env s index inst p mh
            (if index == 0 then R.output else none) ev).events
          (hist ++ [(Runner.step R env s index inst p mh
            (if index == 0 then R.output else none) ev).logs])
        refine ⟨(Runner.step R env s index inst p mh
            (if index == 0 then R.output else none) ev).logs :: d, ?_, ?_, ?_⟩
        · rw [hd1]; simp
        · simpa using Nat.succ_le_succ hd2
        · rcases d with - | ⟨d0, ds⟩
          · intro gl hgl
            simp at hgl
          · intro gl hgl
            rw [List.dropLast_cons₂] at hgl
            rcases List.mem_cons.mp hgl with hgl | hgl
            · subst hgl
              refine ⟨rs, ?_, ?_⟩
              · exact step_writes_reasks R env s index inst p mh
                  (if index == 0 then R.output else none) ev _ _ v rs
                  (by rw [← hres])
              · intro hnil
                rw [hnil] at hdl
                simp [Runner.do_loop] at hdl
            · exact hd3 gl hgl
      · rw [Bool.not_eq_true] at hdl
        simp only [hdl, Bool.not_false, if_true]
        exact ⟨[(Runner.step R env s index inst p mh
            (if index == 0 then R.output else none) ev).logs],
          by simp, by simp, by simp⟩

/-- The asynchronous loop coincides with the synchronous loop driven
with the include-instructions flag fixed to `false` (the Python default
the async driver falls back to). -/
theorem async_loop_eq_loop {S : Type} (R : Runner) (env : Env S) :
    ∀ (fuel index : Nat) (inst p : Option String) (mh : Option (List String))
      (s : S) (ev : List Event) (hist : List GuardLogs),
    AsyncRunner.async_loop R env fuel index inst p mh s ev hist =
      Runner.loop R env false fuel index inst p mh s ev hist := by
  intro fuel
  induction fuel with
  | zero => intro index inst p mh s ev hist; rfl
  | succ n ih =>
    intro index inst p mh s ev hist
    simp only [AsyncRunner.async_loop, Runner.loop, async_step_eq_step]
    rcases (Runner.step R env s index inst p mh
        (if index == 0 then R.output else none) ev).res with e | ⟨v, rs⟩
    · rfl
    · by_cases hdl : Runner.do_loop R index rs = true
      · simp only [hdl, Bool.not_true, Bool.false_eq_true, if_false]
        exact ih (index + 1) _ _ _ _ _ _
      · rw [Bool.not_eq_true] at hdl
        simp only [hdl, Bool.not_false, if_true]

/-! ## Claims -/

/-- C1: one invocation of the run operation appends at most
`numReasks + 1` Attempt Records to the (freshly reset) Session History,
and it appends exactly `numReasks + 1` records only if every record
before the last carries outstanding ReAsk markers; the same bound holds
for the concurrent driver. -/
theorem runner_history_bounded {S : Type} (R : Runner) (env : Env S) :
    ((Runner.run R env).hist.length ≤ R.numReasks + 1 ∧
      ((Runner.run R env).hist.length = R.numReasks + 1 →
        ∀ gl ∈ (Runner.run R env).hist.dropLast,
          ∃ rs, gl.reasksW = [rs] ∧ rs ≠ [])) ∧
    ((AsyncRunner.async_run R env).hist.length ≤ R.numReasks + 1 ∧
      ((AsyncRunner.async_run R env).hist.length = R.numReasks + 1 →
        ∀ gl ∈ (AsyncRunner.async_run R env).hist.dropLast,
          ∃ rs, gl.reasksW = [rs] ∧ rs ≠ [])) := by
  have key : ∀ (incl : Bool) (ev : List Event) (out : RunOut),
      out = Runner.loop R env incl (R.numReasks + 1) 0
        R.instructions R.prompt R.msgHistory env.s0 ev [] →
      out.hist.length ≤ R.numReasks + 1 ∧
        (out.hist.length = R.numReasks + 1 →
          ∀ gl ∈ out.hist.dropLast, ∃ rs, gl.reasksW = [rs] ∧ rs ≠ []) := by
    intro incl ev out hout
    obtain ⟨d, hd1, hd2, hd3⟩ := loop_hist_spec R env incl (R.numReasks + 1) 0
      R.instructions R.prompt R.msgHistory env.s0 ev []
    rw [← hout] at hd1
    constructor
    · rw [hd1]; simpa using hd2
    · intro _ gl hgl
      rw [hd1] at hgl
      exact hd3 gl (by simpa using hgl)
  constructor
  · by_cases hm : (verify_metadata_requirements R.metadata env.requiredKeys).isEmpty = true
    · unfold Runner.run
      simp only [hm, Bool.not_true, Bool.false_eq_true, if_false]
      exact key _ _ _ rfl
    · unfold Runner.run
      rw [Bool.not_eq_true] at hm
      simp only [hm, Bool.not_false, if_true]
      exact ⟨by simp, by intro h; simp at h⟩
  · by_cases hm : (verify_metadata_requirements R.metadata env.requiredKeys).isEmpty = true
    · unfold AsyncRunner.async_run
      simp only [hm, Bool.not_true, Bool.false_eq_true, if_false]
      rw [async_loop_eq_loop]
      exact key _ _ _ rfl
    · unfold AsyncRunner.async_run
      rw [Bool.not_eq_true] at hm
      simp only [hm, Bool.not_false, if_true]
      exact ⟨by simp, by intro h; simp at h⟩

/-- C1 witness: with the always-reasking schema and budget 1, the run
produces exactly two Attempt Records and the first record carries a
nonempty reask list. -/
theorem runner_history_bounded_witness :
    (Runner.run runnerLive1 envReask).hist.length ≤ 2 ∧
      ∀ gl ∈ (Runner.run runnerLive1 envReask).hist.dropLast,
        ∃ rs, gl.reasksW = [rs] ∧ rs ≠ [] :=
  ⟨(runner_history_bounded runnerLive1 envReask).1.1,
    (runner_history_bounded runnerLive1 envReask).1.2 rfl⟩

/-- C2 counterexample: on a runner with instructions configured, a reask
budget of 1, and a schema that always reasks, the synchronous and
asynchronous drivers produce different Session Histories — the second
record's instructions field is the reask instructions under the
synchronous driver but `None` under the asynchronous one. -/
theorem sync_async_divergence_cx :
    (Runner.run runnerLive1 envReask).hist.map (fun gl => gl.instructionsW) ≠
      (AsyncRunner.async_run runnerLive1 envReask).hist.map
        (fun gl => gl.instructionsW) := by
  intro h
  have h1 : (Runner.run runnerLive1 envReask).hist.map
      (fun gl => gl.instructionsW) =
      [[some "i0"], [some "reask instructions"]] := rfl
  have h2 : (AsyncRunner.async_run runnerLive1 envReask).hist.map
      (fun gl => gl.instructionsW) = [[some "i0"], [none]] := rfl
  rw [h1, h2] at h
  simp at h

/-- C2 amended: the asynchronous driver differs from the synchronous one
in exactly two observable ways (it resets the Session History before the
metadata check, and it always clears instructions on a reask because it
omits the include-instructions flag); whenever the metadata requirements
are met and the include-instructions flag would be false anyway (no
instructions and no message history configured), the two drivers produce
identical event traces, Session Histories and results. -/
theorem sync_async_agree_without_instructions {S : Type} (R : Runner)
    (env : Env S)
    (hmeta : verify_metadata_requirements R.metadata env.requiredKeys = [])
    (hinst : R.instructions = none) (hmh : R.msgHistory = none) :
    Runner.run R env = AsyncRunner.async_run R env := by
  unfold Runner.run AsyncRunner.async_run
  simp only [hmeta, List.isEmpty_nil, Bool.not_true, Bool.false_eq_true,
    if_false, hinst, hmh, Option.isNone_none, Bool.and_self]
  exact (async_loop_eq_loop R env _ _ _ _ _ _ _ _).symm

/-- C2 witness: with no instructions and no message history configured,
the two drivers agree on a concrete always-reasking schema. -/
theorem sync_async_agree_witness :
    Runner.run runnerNoInstr envReask = AsyncRunner.async_run runnerNoInstr envReask :=
  sync_async_agree_without_instructions runnerNoInstr envReask rfl rfl rfl

/-- C3 counterexample: with a required metadata key missing, the
asynchronous driver does record a Session History reset before raising,
contradicting the claim that both drivers raise before the history is
reset. -/
theorem async_resets_before_metadata_check_cx :
    (AsyncRunner.async_run runnerNoMeta envNeedsMeta).err =
      some RunErr.missingMetadataKeys ∧
    (AsyncRunner.async_run runnerNoMeta envNeedsMeta).events = [Event.reset] :=
  ⟨rfl, rfl⟩

/-- C3 amended: if a required metadata key is missing, both drivers
raise the fatal metadata error without ever invoking the model client
and without appending any Attempt Record; the synchronous driver raises
before the Session History is reset (its event trace is empty), while
the asynchronous driver resets the history first and then raises (its
event trace is exactly the reset). -/
theorem missing_metadata_fatal_before_call {S : Type} (R : Runner) (env : Env S)
    (hmiss : verify_metadata_requirements R.metadata env.requiredKeys ≠ []) :
    Runner.run R env =
      { events := [], hist := [], err := some RunErr.missingMetadataKeys } ∧
    AsyncRunner.async_run R env =
      { events := [Event.reset], hist := [],
        err := some RunErr.missingMetadataKeys } := by
  have hbool : (verify_metadata_requirements R.metadata env.requiredKeys).isEmpty
      = false := by
    rcases hv : verify_metadata_requirements R.metadata env.requiredKeys with - | ⟨a, l⟩
    · exact absurd hv hmiss
    · rfl
  constructor
  · unfold Runner.run
    simp only [hbool, Bool.not_false, if_true]
  · unfold AsyncRunner.async_run
    simp only [hbool, Bool.not_false, if_true]

/-- C3 witness: at a concrete schema requiring the key `"citation"` and
a runner with empty metadata, both drivers stop with the metadata error,
no client call and no Attempt Record. -/
theorem missing_metadata_fatal_witness :
    Runner.run runnerNoMeta envNeedsMeta =
      { events := [], hist := [], err := some RunErr.missingMetadataKeys } ∧
    AsyncRunner.async_run runnerNoMeta envNeedsMeta =
      { events := [Event.reset], hist := [],
        err := some RunErr.missingMetadataKeys } :=
  missing_metadata_fatal_before_call runnerNoMeta envNeedsMeta (by decide)

/-- C6: on every loop transition that continues, the next iteration is
driven by a fresh prompt/instructions/schema triple obtained from the
schema collaborator's reask setup — called with the previous iteration's
validated structure (with markers) and the runner's full-schema flag —
and the message history is cleared to `None`: the first conjunct
characterises `prepare_to_loop`, the second shows the loop feeds exactly
its outputs (with `none` message history) into the next iteration. -/
theorem loop_reask_setup_fresh {S : Type} (R : Runner) (env : Env S)
    (incl : Bool) (s : S) :
    (∀ (reasks : List Val) (validated_output : Val),
      Runner.prepare_to_loop R env reasks validated_output s incl =
        ((env.get_reask_setup s reasks validated_output R.fullSchemaReask).2.1,
         (if incl then
            (env.get_reask_setup s reasks validated_output R.fullSchemaReask).2.2
          else none),
         (env.get_reask_setup s reasks validated_output R.fullSchemaReask).1,
         (none : Option (List String)))) ∧
    (∀ (fuel index : Nat) (inst p : Option String) (mh : Option (List String))
       (ev : List Event) (hist : List GuardLogs) (ev2 : List Event)
       (gl : GuardLogs) (v : Val) (rs : List Val),
      Runner.step R env s index inst p mh
          (if index == 0 then R.output else none) ev = ⟨ev2, gl, .ok (v, rs)⟩ →
      Runner.do_loop R index rs = true →
      Runner.loop R env incl (fuel + 1) index inst p mh s ev hist =
        Runner.loop R env incl fuel (index + 1)
          (if incl then (env.get_reask_setup s rs v R.fullSchemaReask).2.2
           else none)
          (some (env.get_reask_setup s rs v R.fullSchemaReask).2.1)
          none
          (env.get_reask_setup s rs v R.fullSchemaReask).1
          ev2 (hist ++ [gl])) := by
  constructor
  · intro reasks validated_output
    rcases hg : env.get_reask_setup s reasks validated_output R.fullSchemaReask
      with ⟨s2, pr, ins⟩
    simp [Runner.prepare_to_loop, hg]
  · intro fuel index inst p mh ev hist ev2 gl v rs hstep hdl
    simp only [Runner.loop, hstep, hdl, Bool.not_true, Bool.false_eq_true,
      if_false]
    rcases hg : env.get_reask_setup s rs v R.fullSchemaReask with ⟨s2, pr, ins⟩
    simp [Runner.prepare_to_loop, hg]

/-- C6 witness: a concrete continuing transition of the always-reasking
schema at budget 1 recurses with the fresh reask prompt and
instructions, the updated schema, and a cleared message history. -/
theorem loop_reask_setup_fresh_witness :
    Runner.loop runnerLive1 envReask true 2 0 (some "i0") (some "p0") none ()
        [Event.reset] [] =
      Runner.loop runnerLive1 envReask true 1 1
        (some "reask instructions") (some "reask prompt") none ()
        (Runner.step runnerLive1 envReask () 0 (some "i0") (some "p0") none
          none [Event.reset]).events
        ([] ++ [(Runner.step runnerLive1 envReask () 0 (some "i0") (some "p0")
          none none [Event.reset]).logs]) :=
  (loop_reask_setup_fresh runnerLive1 envReask true ()).2 1 0
    (some "i0") (some "p0") none [Event.reset] []
    (Runner.step runnerLive1 envReask () 0 (some "i0") (some "p0") none
      none [Event.reset]).events
    (Runner.step runnerLive1 envReask () 0 (some "i0") (some "p0") none
      none [Event.reset]).logs
    (.vdict [("f", fieldMarker)]) [fieldMarker] rfl rfl

/-- C5: with no literal output and a client configured, the Call stage
invokes the client with the structured-output hint first; if that
attempt raises it retries exactly once, in the same invocation, without
the hint, and only an exception of that second attempt propagates (first
conjunct, covering all three argument shapes); and a Call-stage
exception terminates the run immediately — the loop returns after the
current record with the error, running no further iterations, so the
failure consumes no reask budget (second conjunct). -/
theorem call_degrade_and_retry (a : ApiModel) (inst p : Option String)
    (mh : Option (List String)) (ev : List Event) (k : CallKind)
    (hk : callKind inst p mh = some k) :
    (Runner.call inst p mh (some a) none ev =
      (match a.hinted k with
       | .ok r => (ev ++ [Event.apiCall true], Except.ok r)
       | .error _ =>
         match a.unhinted k with
         | .ok r => (ev ++ [Event.apiCall true, Event.apiCall false],
             Except.ok r)
         | .error _ => (ev ++ [Event.apiCall true, Event.apiCall false],
             Except.error RunErr.apiException))) ∧
    (∀ {S : Type} (R : Runner) (env : Env S) (incl : Bool) (fuel index : Nat)
       (s : S) (ev2 : List Event) (hist : List GuardLogs) (ev3 : List Event)
       (gl : GuardLogs) (e : RunErr),
      Runner.step R env s index inst p mh
          (if index == 0 then R.output else none) ev2 = ⟨ev3, gl, .error e⟩ →
      Runner.loop R env incl (fuel + 1) index inst p mh s ev2 hist =
        { events := ev3, hist := hist ++ [gl], err := some e }) := by
  constructor
  · unfold Runner.call callKind at *
    by_cases hmt : msgTruthy mh = true
    · simp only [hmt, if_true, Option.some.injEq] at hk
      subst hk
      simp only [hmt, eq_self_iff_true, if_true]
      rfl
    · rw [Bool.not_eq_true] at hmt
      simp only [hmt, Bool.false_eq_true, if_false] at hk ⊢
      rcases p with - | p0 <;> rcases inst with - | i0 <;>
        simp only [Option.some.injEq] at hk <;>
        (try exact absurd hk (by simp)) <;> (subst hk; rfl)
  · intro S R env incl fuel index s ev2 hist ev3 gl e hstep
    simp only [Runner.loop, hstep]

/-- C5 witness: a client whose hinted form raises falls back to one
unhinted call and returns its answer; a client that raises on both
attempts makes the whole run stop with the propagated exception after a
single Attempt Record, leaving the remaining budget unused. -/
theorem call_degrade_and_retry_witness :
    (Runner.call (some "i0") (some "p0") none (some apiHintBroken) none [] =
      ([Event.apiCall true, Event.apiCall false],
        Except.ok { output := "fallback" })) ∧
    (Runner.loop runnerApiDown envBase false 4 0 none (some "p0") none ()
        [Event.reset] [] =
      { events := [Event.reset, Event.apiCall true, Event.apiCall false],
        hist := [] ++ [(Runner.step runnerApiDown envBase () 0 none
          (some "p0") none none [Event.reset]).logs],
        err := some RunErr.apiException }) :=
  ⟨(call_degrade_and_retry apiHintBroken (some "i0") (some "p0") none []
      (CallKind.promptInstr "p0" "i0") rfl).1,
    (call_degrade_and_retry apiDown none (some "p0") none [Event.reset]
      (CallKind.promptOnly "p0") rfl).2 runnerApiDown envBase false 3 0 ()
      [Event.reset] []
      (Runner.step runnerApiDown envBase () 0 none (some "p0") none none
        [Event.reset]).events
      (Runner.step runnerApiDown envBase () 0 none (some "p0") none none
        [Event.reset]).logs
      RunErr.apiException rfl⟩

/-- C4 counterexample: on the terminal iteration (budget 0, so `do_loop`
is false) with an unparseable literal output, the step returns the
`NonParseableReAsk` marker itself as the iteration's value — an
engine-internal ReAsk type escapes as the final output instead of being
substituted away. -/
theorem terminal_unparseable_reask_escapes_cx :
    (Runner.step runnerJunk envUnparse () 0 none none none (some "junk")
        []).res =
      .ok (.nonParseableReAsk (.vstr "junk"),
        [.nonParseableReAsk (.vstr "junk")]) ∧
    Runner.do_loop runnerJunk 0 [.nonParseableReAsk (.vstr "junk")] = false ∧
    Val.isReAsk (.nonParseableReAsk (.vstr "junk")) = true :=
  ⟨rfl, rfl, rfl⟩

/-- C4 amended: on a terminal iteration the step applies fixed-value
substitution to the validated output and returns it (falling back to the
parsed value when the substituted value is falsy) — but when the parse
produced an `UnparseableReAsk` the validated output is `None`,
substitution is applied to that `None`, and the step returns the
`UnparseableReAsk` itself unchanged, so a root `UnparseableReAsk` can be
emitted as final output while `FieldReAsk` markers inside a validated
structure are substituted away. -/
theorem terminal_substitution_behavior {S : Type} (R : Runner) (env : Env S)
    (s : S) (index : Nat) (inst p : Option String)
    (mh : Option (List String)) (out : Option String) (ev ev2 : List Event)
    (gl : GuardLogs) (v : Val) (rs : List Val)
    (hstep : Runner.step R env s index inst p mh out ev = ⟨ev2, gl, .ok (v, rs)⟩)
    (hterm : Runner.do_loop R index rs = false) :
    ((∀ x, env.parse s x = (.nonParseableReAsk (.vstr x), true)) →
      ∃ raw, v = .nonParseableReAsk (.vstr raw)) ∧
    ((∀ x, (env.parse s x).2 = false) →
      ∃ parsed, gl.parsedOutputW = [parsed] ∧
        v = pyOr (sub_reasks_with_fixed_values (env.validate s parsed)) parsed) := by
  constructor
  · intro hp
    simp only [Runner.step] at hstep
    split at hstep
    · simp only [StepOut.mk.injEq] at hstep
      exact absurd hstep.2.2 (by simp)
    · split at hstep
      · simp only [StepOut.mk.injEq] at hstep
        exact absurd hstep.2.2 (by simp)
      · simp only [Runner.parse, hp, Val.isNonParseable, Bool.and_self,
          eq_self_iff_true, if_true] at hstep
        simp only [StepOut.mk.injEq, Except.ok.injEq, Prod.mk.injEq] at hstep
        obtain ⟨-, -, hv, -⟩ := hstep
        simp only [sub_reasks_with_fixed_values, ite_self, pyOr, Val.truthy,
          Bool.false_eq_true, if_false] at hv
        exact ⟨_, hv.symm⟩
  · intro hp2
    simp only [Runner.step] at hstep
    split at hstep
    · simp only [StepOut.mk.injEq] at hstep
      exact absurd hstep.2.2 (by simp)
    · split at hstep
      · simp only [StepOut.mk.injEq] at hstep
        exact absurd hstep.2.2 (by simp)
      · simp only [Runner.parse, hp2, Bool.false_and, Bool.false_eq_true,
          if_false] at hstep
        simp only [StepOut.mk.injEq, Except.ok.injEq, Prod.mk.injEq] at hstep
        obtain ⟨-, hgl, hv, hrs⟩ := hstep
        subst hgl
        refine ⟨_, rfl, ?_⟩
        rw [← hv]
        rw [hrs] at hv ⊢
        rw [hterm]
        simp [Runner.validate]

/-- C4 witness: instantiating the amended theorem at the concrete
unparseable replay run shows the terminal step's returned value is the
`UnparseableReAsk` itself. -/
theorem terminal_substitution_witness :
    ∃ raw, Val.nonParseableReAsk (Val.vstr "junk") =
      Val.nonParseableReAsk (Val.vstr raw) :=
  (terminal_substitution_behavior runnerJunk envUnparse () 0 none none none
    (some "junk") [] [] _ (.nonParseableReAsk (.vstr "junk"))
    [.nonParseableReAsk (.vstr "junk")] rfl rfl).1 (fun _ => rfl)

/-- C7: when the schema cannot parse the raw output (the parsed value is
an `UnparseableReAsk` with the error flag set), the step neither raises
nor aborts: it skips the Validate stage entirely (no validate event is
appended and the validated-value field stays `None`), introspects the
`UnparseableReAsk` directly, and completes a normal Attempt Record whose
reasks come from that introspection. -/
theorem parse_failure_skips_validation {S : Type} (R : Runner) (env : Env S)
    (s : S) (index : Nat) (inst p : Option String)
    (mh : Option (List String)) (ev : List Event) (o : String)
    (ho : strTruthy o = true)
    (hp : ∀ x, env.parse s x = (.nonParseableReAsk (.vstr x), true)) :
    Runner.step R env s index inst p mh (some o) ev =
      { events := ev,
        logs := { promptW := [none], instructionsW := [none],
                  msgHistoryW := [none],
                  llmResponseW := [{ output := o }],
                  parsedOutputW := [.nonParseableReAsk (.vstr o)],
                  validatedOutputW := [.vnone],
                  reasksW := [env.introspect s (.nonParseableReAsk (.vstr o))] },
        res := .ok (.nonParseableReAsk (.vstr o),
          env.introspect s (.nonParseableReAsk (.vstr o))) } := by
  simp only [Runner.step, optStrTruthy, ho, if_true, Runner.call,
    Runner.parse, hp, Runner.introspect, Val.isPyNone, Val.isNonParseable,
    Bool.and_self, eq_self_iff_true, sub_reasks_with_fixed_values, ite_self,
    pyOr, Val.truthy, Bool.false_eq_true, if_false, List.nil_append]

/-- C7 witness: concrete unparseable replay step, showing the unchanged
event trace (no validate event), the `None` validated value, and the
reasks produced by introspecting the marker. -/
theorem parse_failure_skips_validation_witness :
    Runner.step runnerJunk envUnparse () 5 none none none (some "junk")
        [Event.reset] =
      { events := [Event.reset],
        logs := { promptW := [none], instructionsW := [none],
                  msgHistoryW := [none],
                  llmResponseW := [{ output := "junk" }],
                  parsedOutputW := [.nonParseableReAsk (.vstr "junk")],
                  validatedOutputW := [.vnone],
                  reasksW := [[.nonParseableReAsk (.vstr "junk")]] },
        res := .ok (.nonParseableReAsk (.vstr "junk"),
          [.nonParseableReAsk (.vstr "junk")]) } :=
  parse_failure_skips_validation runnerJunk envUnparse () 5 none none none
    [Event.reset] "junk" (by decide) (fun _ => rfl)

/-- C8 counterexample: on a terminal iteration of the validate branch
the validated-value field of the Attempt Record is written twice — once
with the marker-bearing validated structure immediately after the
Validate stage, and once after the terminal-substitution check with the
substituted value — so the field is not written exactly once and its
value changes within the iteration. -/
theorem validated_output_double_write_cx :
    (Runner.step runnerReplay envReask () 0 none none none (some "hello")
        []).logs.validatedOutputW =
      [.vdict [("f", fieldMarker)], .vdict [("f", .vint 10)]] ∧
    (Runner.step runnerReplay envReask () 0 none none none (some "hello")
        []).logs.validatedOutputW.length = 2 :=
  ⟨rfl, rfl⟩

/-- C8 amended: in a successfully completed step, the request fields,
raw response, parsed value and reask list of the Attempt Record are each
written exactly once, in stage order; the validated value, however, is
written once (as `None`) in the unparseable branch and twice in the
validate branch — immediately after validation and again after the
terminal-substitution check. -/
theorem attempt_record_write_discipline {S : Type} (R : Runner) (env : Env S)
    (s : S) (index : Nat) (inst p : Option String)
    (mh : Option (List String)) (out : Option String) (ev ev2 : List Event)
    (gl : GuardLogs) (v : Val) (rs : List Val)
    (hstep : Runner.step R env s index inst p mh out ev =
      ⟨ev2, gl, .ok (v, rs)⟩) :
    gl.promptW.length = 1 ∧ gl.instructionsW.length = 1 ∧
    gl.msgHistoryW.length = 1 ∧ gl.llmResponseW.length = 1 ∧
    gl.parsedOutputW.length = 1 ∧ gl.reasksW.length = 1 ∧
    (gl.validatedOutputW = [Val.vnone] ∨ gl.validatedOutputW.length = 2) := by
  simp only [Runner.step] at hstep
  split at hstep
  · simp only [StepOut.mk.injEq] at hstep
    exact absurd hstep.2.2 (by simp)
  · split at hstep
    · simp only [StepOut.mk.injEq] at hstep
      exact absurd hstep.2.2 (by simp)
    · split at hstep
      · simp only [StepOut.mk.injEq, Except.ok.injEq, Prod.mk.injEq] at hstep
        obtain ⟨-, hgl, -, -⟩ := hstep
        subst hgl
        refine ⟨rfl, rfl, rfl, rfl, rfl, rfl, Or.inl ?_⟩
        simp [sub_reasks_with_fixed_values, ite_self]
      · simp only [StepOut.mk.injEq, Except.ok.injEq, Prod.mk.injEq] at hstep
        obtain ⟨-, hgl, -, -⟩ := hstep
        subst hgl
        exact ⟨rfl, rfl, rfl, rfl, rfl, rfl, Or.inr rfl⟩

/-- C8 witness: the amended discipline instantiated at the concrete
terminal validate-branch step (whose validated value is written
twice). -/
theorem attempt_record_write_discipline_witness :
    (Runner.step runnerReplay envReask () 0 none none none (some "hello")
        []).logs.promptW.length = 1 ∧
    (Runner.step runnerReplay envReask () 0 none none none (some "hello")
        []).logs.instructionsW.length = 1 ∧
    (Runner.step runnerReplay envReask () 0 none none none (some "hello")
        []).logs.msgHistoryW.length = 1 ∧
    (Runner.step runnerReplay envReask () 0 none none none (some "hello")
        []).logs.llmResponseW.length = 1 ∧
    (Runner.step runnerReplay envReask () 0 none none none (some "hello")
        []).logs.parsedOutputW.length = 1 ∧
    (Runner.step runnerReplay envReask () 0 none none none (some "hello")
        []).logs.reasksW.length = 1 ∧
    ((Runner.step runnerReplay envReask () 0 none none none (some "hello")
        []).logs.validatedOutputW = [Val.vnone] ∨
      (Runner.step runnerReplay envReask () 0 none none none (some "hello")
        []).logs.validatedOutputW.length = 2) :=
  attempt_record_write_discipline runnerReplay envReask () 0 none none none
    (some "hello") [] _ _ (.vdict [("f", .vint 10)]) [fieldMarker] rfl

/-- C9: evaluating `ValidLength.validate` with `min = 3` on the
one-element list `["a"]` shows the bug: the input list is mutated in
place by `value.extend(...)` (the value object ends up as
`["a", ["a"], ["a"]]`, padded with singleton-list wrappers), and because
`list.extend` returns `None` the reported `fix_value` is `None` instead
of the input padded to the minimum length — contradicting the
validator's own documented programmatic fix and the no-mutation
contract. -/
theorem valid_length_list_mutation_bug :
    ValidLength.validate (some 3) none "z" (.vlist [.vstr "a"]) =
      (.vlist [.vstr "a", .vlist [.vstr "a"], .vlist [.vstr "a"]],
        .fail none) :=
  rfl

/-- C10: the step's return expression selects between the validated and
parsed values by Python truthiness (`validated_output or parsed_output`):
whenever the final validated value (the last write to the record's
validated-value field) is falsy, the step returns the parsed value
instead, and whenever it is truthy, the step returns it. -/
theorem step_truthiness_selects_parsed {S : Type} (R : Runner) (env : Env S)
    (s : S) (index : Nat) (inst p : Option String)
    (mh : Option (List String)) (out : Option String) (ev ev2 : List Event)
    (gl : GuardLogs) (v : Val) (rs : List Val)
    (hstep : Runner.step R env s index inst p mh out ev =
      ⟨ev2, gl, .ok (v, rs)⟩)
    (validated1 : Val)
    (hlast : gl.validatedOutputW.getLast? = some validated1) :
    (validated1.truthy = false → gl.parsedOutputW = [v]) ∧
    (validated1.truthy = true → v = validated1) := by
  simp only [Runner.step] at hstep
  split at hstep
  · simp only [StepOut.mk.injEq] at hstep
    exact absurd hstep.2.2 (by simp)
  · split at hstep
    · simp only [StepOut.mk.injEq] at hstep
      exact absurd hstep.2.2 (by simp)
    · split at hstep <;>
        (simp only [StepOut.mk.injEq, Except.ok.injEq, Prod.mk.injEq] at hstep
         obtain ⟨-, hgl, hv, -⟩ := hstep
         subst hgl
         simp only [List.nil_append, List.singleton_append,
           List.getLast?_cons_cons, List.getLast?_singleton,
           Option.some.injEq] at hlast
         subst hlast
         constructor
         · intro ht
           simp only [pyOr, ht, Bool.false_eq_true, if_false] at hv
           exact congrArg (fun z => [z]) hv
         · intro ht
           simp only [pyOr, ht, if_true] at hv
           exact hv.symm)

/-- C10 witness: a schema validating to an empty dict (falsy) makes the
step return the parsed value — the truthy raw string — instead of the
successfully validated empty structure. -/
theorem step_truthiness_selects_parsed_witness :
    (Runner.step runnerReplay envEmptyDict () 0 none none none (some "hello")
        []).logs.parsedOutputW = [.vstr "hello"] :=
  (step_truthiness_selects_parsed runnerReplay envEmptyDict () 0 none none
    none (some "hello") [] _ _ (.vstr "hello") [] rfl (.vdict []) rfl).1 rfl
